import Mathlib

/-!
Shallow embedding of `src/app.py` (a bounded-concurrency job-listing scraper).

The embedding mirrors the Python source:

* Python string primitives (`str.strip`, `str.replace`, `str.split`,
  `str.zfill`) are modelled over `List Char` with Python's semantics.
* `PracujPlScraper.convert_to_iso` and `PracujPlScraper.clean_salary` are
  translated directly.
* `PracujPlScraper.parse_page` works on a BeautifulSoup document; the
  markup-query library is an external collaborator, so one listing block is
  modelled abstractly as an `Offer` record holding the query results the code
  reads (each optional sub-element's text, the matching technology tag texts
  in document order, the anchor's href).
* `BaseScraper.process_urls` / `process_url` (asyncio tasks bounded by a
  semaphore, each task fetching via Selenium on a worker thread and then
  extending the shared aggregate on the event loop) are modelled as a
  small-step transition system `Step`: a task `acquire`s one of the `k`
  permits, and later `finish`es (fetch result consumed, aggregate and log
  extended atomically, permit released).  The event loop serialises the
  extend, so a single atomic `finish` is faithful.
* `BaseScraper.save_to_csv` is modelled as a pure function of the record list
  and of the disk's behaviour (`SinkOutcome`), returning the file rows
  written, the log lines, and whether an exception escapes.
-/

namespace App

/-! ### Python string primitives over `List Char` -/

/-- Python `str.strip()` on the underlying character list: drop leading and
trailing whitespace. -/
def pyStripList (l : List Char) : List Char :=
  ((l.dropWhile Char.isWhitespace).reverse.dropWhile Char.isWhitespace).reverse

/-- Python `str.strip()`. -/
def pyStrip (s : String) : String :=
  ⟨pyStripList s.data⟩

/-- Fuel-driven worker for Python `str.replace`: replace each leftmost
non-overlapping occurrence of `pat` by `repl`.  One unit of fuel is spent per
consumed input character position, so `l.length` fuel always suffices. -/
def replaceFuel (pat repl : List Char) : Nat → List Char → List Char
  | 0, l => l
  | _ + 1, [] => []
  | fuel + 1, c :: rest =>
    if pat.isPrefixOf (c :: rest) then
      repl ++ replaceFuel pat repl fuel (rest.drop (pat.length - 1))
    else
      c :: replaceFuel pat repl fuel rest

/-- Python `s.replace(pat, repl)` (all occurrences, left to right). -/
def pyReplace (s pat repl : String) : String :=
  ⟨replaceFuel pat.data repl.data s.data.length s.data⟩

/-- Worker for Python `str.split()` (no separator): split on runs of
whitespace, discarding empty fragments.  `acc` holds the current fragment,
reversed. -/
def splitWsAux : List Char → List Char → List String
  | [], acc => if acc = [] then [] else [⟨acc.reverse⟩]
  | c :: rest, acc =>
    if c.isWhitespace then
      if acc = [] then splitWsAux rest [] else ⟨acc.reverse⟩ :: splitWsAux rest []
    else
      splitWsAux rest (c :: acc)

/-- Python `s.split()` with no argument. -/
def pySplit (s : String) : List String :=
  splitWsAux s.data []

/-- Python `s.zfill(2)`: left-pad with `'0'` to length 2, keeping a leading
sign character in front of the padding. -/
def zfill2 (s : String) : String :=
  if 2 ≤ s.data.length then s
  else
    match s.data with
    | [] => ⟨['0', '0']⟩
    | c :: rest =>
      if c = '+' ∨ c = '-' then ⟨c :: List.replicate (2 - s.data.length) '0' ++ rest⟩
      else ⟨List.replicate (2 - s.data.length) '0' ++ s.data⟩

/-! ### `PracujPlScraper.convert_to_iso` and `clean_salary` -/

/-- The `polish_months` dictionary of `convert_to_iso`. -/
def polishMonths : List (String × String) :=
  [("stycznia", "01"), ("lutego", "02"), ("marca", "03"), ("kwietnia", "04"),
   ("maja", "05"), ("czerwca", "06"), ("lipca", "07"), ("sierpnia", "08"),
   ("września", "09"), ("października", "10"), ("listopada", "11"), ("grudnia", "12")]

/-- `polish_months[month_polish]`, as a lookup returning `none` where Python
raises `KeyError`. -/
def monthLookup (m : String) : Option String :=
  (polishMonths.find? (fun p => p.1 == m)).map Prod.snd

/-- `PracujPlScraper.convert_to_iso`.  The Python body guards on
`not date_str.strip()`, then unpacks
`date_str.replace('Opublikowana:', '').strip().split()` into exactly three
tokens and indexes `polish_months`; every raised exception (unpack failure,
`KeyError`) is caught and turned into `"Brak daty"`. -/
def convert_to_iso (date_str : String) : String :=
  if pyStrip date_str = "" then "Brak daty"
  else
    match pySplit (pyStrip (pyReplace date_str "Opublikowana:" "")) with
    | [day, month_polish, year] =>
      match monthLookup month_polish with
      | some month => year ++ "-" ++ month ++ "-" ++ zfill2 day
      | none => "Brak daty"
    | _ => "Brak daty"

/-- `PracujPlScraper.clean_salary`:
`salary.replace(' zł / mies. (zal. od umowy)', '').strip()`. -/
def clean_salary (salary : String) : String :=
  pyStrip (pyReplace salary " zł / mies. (zal. od umowy)" "")

/-! ### `PracujPlScraper.parse_page`

BeautifulSoup is an external collaborator ("structured document query").  One
listing block (`offer` in the source) is modelled by the results of the six
queries the code performs on it: the raw text of each optional sub-element
(`None` when the corresponding `find` misses), the raw texts of all matching
technology tag elements in document order (`find_all`), and the anchor's
`href` attribute.  `get_text(strip=True)` is modelled as Python `strip` of the
raw text. -/

/-- The Python listing dict stores either a plain string (sentinel or cleaned
text) or, for `'Technologie'`, possibly a list of strings. -/
inductive TechValue where
  | strVal (s : String)
  | listVal (l : List String)
deriving DecidableEq

/-- One extracted listing record (the dict built by `parse_page`), with the
keys in insertion order: `Tytuł`, `Firma`, `Data_opublikowania`,
`Wynagrodzenie`, `Technologie`, `Link`. -/
structure JobData where
  tytul : String
  firma : String
  dataOpublikowania : String
  wynagrodzenie : String
  technologie : TechValue
  link : String
deriving DecidableEq

/-- One listing block, abstracted to the query results `parse_page` reads. -/
structure Offer where
  titleTag : Option String
  companyTag : Option String
  dateTag : Option String
  salaryTag : Option String
  techTags : List String
  linkTag : Option String

/-- The body of the `for offer in offers` loop in `parse_page`: build one
`job_data` dict.  A missing sub-element falls back to its sentinel; an empty
`tech_tags` result is falsy in Python, so the `Technologie` field becomes the
sentinel string rather than an empty list. -/
def parse_offer (o : Offer) : JobData :=
  { tytul := match o.titleTag with
      | some t => pyStrip t
      | none => "Brak tytułu"
    firma := match o.companyTag with
      | some t => pyStrip t
      | none => "Brak nazwy firmy"
    dataOpublikowania := convert_to_iso (o.dateTag.getD "")
    wynagrodzenie := clean_salary (o.salaryTag.getD "Brak wynagrodzenia")
    technologie :=
      if o.techTags = [] then TechValue.strVal "Brak technologii"
      else TechValue.listVal (o.techTags.map pyStrip)
    link := o.linkTag.getD "Brak linku" }

/-- `PracujPlScraper.parse_page`, applied to the listing blocks found in the
rendered document. -/
def parse_page (offers : List Offer) : List JobData :=
  offers.map parse_offer

/-! ### `BaseScraper.save_to_csv`

The sink is modelled as a pure function of the collected records and of the
disk's behaviour.  A record is an association list (a Python dict preserves
insertion order), so `self.data[0].keys()` is the first record's keys in that
record's order.  `SinkOutcome.ioError` models an `IOError` raised by
`open`/`write`; the Python code catches exactly that, logs
`"Error saving to CSV"`, and falls through — returning `None` just as the
success path does. -/

/-- Log lines emitted by the program, structured by call site. -/
inductive LogMsg where
  | fetchError (url : String)
  | processed (url : String) (count : Nat)
  | noDataWarning
  | savedInfo (filename : String)
  | saveError (filename : String)
deriving DecidableEq

/-- Behaviour of the destination during `save_to_csv`: the write either
succeeds or raises `IOError`. -/
inductive SinkOutcome where
  | ok
  | ioError
deriving DecidableEq

/-- State of the destination file after `save_to_csv`: never opened
(`untouched`), fully written (`written rows`, header first), or left after a
failed write attempt (`failed`). -/
inductive FileState where
  | untouched
  | written (rows : List (List String))
  | failed
deriving DecidableEq

/-- Everything observable about one `save_to_csv` call: the destination file
state, the log lines, and whether an exception escapes to the caller. -/
structure SaveResult where
  file : FileState
  logs : List LogMsg
  raised : Bool
deriving DecidableEq

/-- `csv.DictWriter` cell lookup: the value of field `k` in record `rec`
(missing fields are written as the empty-string restval). -/
def lookupField (rec : List (String × String)) (k : String) : String :=
  ((rec.find? (fun p => p.1 == k)).map Prod.snd).getD ""

/-- One data row, as `csv.DictWriter.writerow` emits it: the record's values
in `fieldnames` order. -/
def rowOf (fieldnames : List String) (rec : List (String × String)) : List String :=
  fieldnames.map (lookupField rec)

/-- `BaseScraper.save_to_csv`.  Empty data returns before `open`, logging a
warning; otherwise the header is `self.data[0].keys()` followed by one row
per record, and an `IOError` is caught and logged. -/
def save_to_csv (data : List (List (String × String))) (filename : String)
    (disk : SinkOutcome) : SaveResult :=
  match data with
  | [] => { file := FileState.untouched, logs := [LogMsg.noDataWarning], raised := false }
  | first :: rest =>
    match disk with
    | SinkOutcome.ok =>
      let fieldnames := first.map Prod.fst
      { file := FileState.written (fieldnames :: (first :: rest).map (rowOf fieldnames))
        logs := [LogMsg.savedInfo filename]
        raised := false }
    | SinkOutcome.ioError =>
      { file := FileState.failed, logs := [LogMsg.saveError filename], raised := false }

/-! ### `BaseScraper.process_urls`: the bounded-concurrency coordinator

`process_urls` creates one asyncio task per URL; each task does
`async with sem: await process_url(url)` where `sem = Semaphore(max_workers)`.
`process_url` runs `fetch_page` (one Selenium renderer, created and quit
inside the call) on a worker thread and, if the result is truthy, runs
`parse_page` and extends `self.data` — both on the event-loop thread, hence
atomically with respect to other tasks.  The run is modelled as a
nondeterministic transition system over `SchedState`, abstracting the
extractor to any `p : String → List R` (the `parse_page` hook is abstract in
`BaseScraper`). -/

section Coordinator

variable {R : Type}

/-- Records one task contributes to `self.data`: `fetch_page` returns `None`
on error (after logging), and `process_url` guards with `if html:` — so both
`None` and an empty page source contribute nothing; otherwise
`parse_page(html)` is appended. -/
def contribution (f : String → Option String) (p : String → List R) (url : String) :
    List R :=
  match f url with
  | none => []
  | some html => if html = "" then [] else p html

/-- Log lines one task emits: `logger.error` inside `fetch_page` on failure,
`logger.info` with the record count in `process_url` on a truthy page. -/
def logContribution (f : String → Option String) (p : String → List R) (url : String) :
    List LogMsg :=
  match f url with
  | none => [LogMsg.fetchError url]
  | some html => if html = "" then [] else [LogMsg.processed url (p html).length]

/-- Scheduler state of one `process_urls` run: URLs whose tasks still wait on
the semaphore, URLs holding a permit (renderer/extract cycle active), URLs
whose tasks completed, the free-permit count, the shared aggregate
`self.data`, and the emitted log. -/
structure SchedState (R : Type) where
  waiting : Multiset String
  running : Multiset String
  finished : Multiset String
  avail : Nat
  data : List R
  logs : List LogMsg

/-- Interleaving semantics of the run.  `acquire`: a waiting task obtains a
free permit and starts its fetch/extract cycle.  `finish`: a running task
completes — its records and log lines are appended atomically (the event loop
serialises the post-`await` code) and its permit is released on leaving
`async with sem`.  Completion order is unconstrained. -/
inductive Step (f : String → Option String) (p : String → List R) :
    SchedState R → SchedState R → Prop where
  | acquire (s : SchedState R) (url : String)
      (hmem : url ∈ s.waiting) (hav : 0 < s.avail) :
      Step f p s
        { waiting := s.waiting.erase url
          running := url ::ₘ s.running
          finished := s.finished
          avail := s.avail - 1
          data := s.data
          logs := s.logs }
  | finish (s : SchedState R) (url : String) (hmem : url ∈ s.running) :
      Step f p s
        { waiting := s.waiting
          running := s.running.erase url
          finished := url ::ₘ s.finished
          avail := s.avail + 1
          data := s.data ++ contribution f p url
          logs := s.logs ++ logContribution f p url }

/-- Initial state of `process_urls` on `urls` with `max_workers = k`: every
task waits, all `k` permits are free, the aggregate and log are empty. -/
def initState (urls : List String) (k : Nat) : SchedState R :=
  { waiting := ↑urls, running := 0, finished := 0, avail := k, data := [], logs := [] }

/-- All interleavings of the run. -/
def Reachable (f : String → Option String) (p : String → List R) :
    SchedState R → SchedState R → Prop :=
  Relation.ReflTransGen (Step f p)

/-- `asyncio.gather(*tasks)` has returned: no task waits or runs. -/
def Terminal (s : SchedState R) : Prop :=
  s.waiting = 0 ∧ s.running = 0

/-- Run invariant: permits are conserved (`card running + avail = k`), tasks
are conserved, and the aggregate (resp. the log) plus the contributions of
the tasks still to finish equal the total over all URLs. -/
def Inv (f : String → Option String) (p : String → List R) (urls : List String) (k : Nat)
    (s : SchedState R) : Prop :=
  Multiset.card s.running + s.avail = k ∧
  s.waiting + s.running + s.finished = ↑urls ∧
  (↑s.data : Multiset R)
      + (s.waiting + s.running).bind (fun u => (contribution f p u : Multiset R))
    = (↑urls : Multiset String).bind (fun u => (contribution f p u : Multiset R)) ∧
  (↑s.logs : Multiset LogMsg)
      + (s.waiting + s.running).bind (fun u => (logContribution f p u : Multiset LogMsg))
    = (↑urls : Multiset String).bind (fun u => (logContribution f p u : Multiset LogMsg))

/-! ### Concrete fetch/extract stubs used by the witnesses -/

/-- Stub renderer: the URL `"bad"` fails to render (`fetch_page` returns
`None`), every other URL renders to `"<html>"`. -/
def wFetch : String → Option String :=
  fun url => if url = "bad" then none else some "<html>"

/-- Stub extractor: every rendered page yields the single record `7`. -/
def wParse : String → List Nat :=
  fun _ => [7]

/-- A listing block on which every query misses: each field falls back to
its sentinel. -/
def emptyOffer : Offer :=
  { titleTag := none, companyTag := none, dateTag := none,
    salaryTag := none, techTags := [], linkTag := none }

/-- A listing block whose only matches are two technology tag elements, with
untrimmed texts `"Python "` and `" SQL"` in document order. -/
def twoTechOffer : Offer :=
  { titleTag := none, companyTag := none, dateTag := none,
    salaryTag := none, techTags := ["Python ", " SQL"], linkTag := none }

/-! ### String lemmas -/

lemma strip_empty_all_ws {s : String} (h : pyStrip s = "") :
    ∀ c ∈ s.data, c.isWhitespace := by
  have hl : pyStripList s.data = [] := congrArg String.data h
  unfold pyStripList at hl
  rw [List.reverse_eq_nil_iff, List.dropWhile_eq_nil_iff] at hl
  intro c hc
  rw [← List.takeWhile_append_dropWhile (p := Char.isWhitespace) (l := s.data)] at hc
  rcases List.mem_append.mp hc with h1 | h2
  · exact List.mem_takeWhile_imp h1
  · exact hl c (List.mem_reverse.mpr h2)

lemma replaceFuel_all_ws (pat repl : List Char) (c0 : Char) (tl : List Char)
    (hp : pat = c0 :: tl) (hc0 : c0.isWhitespace = false) :
    ∀ (fuel : Nat) (l : List Char), (∀ c ∈ l, c.isWhitespace) →
      replaceFuel pat repl fuel l = l := by
  intro fuel
  induction fuel with
  | zero => intro l _; rfl
  | succ n ih =>
    intro l hl
    cases l with
    | nil => rfl
    | cons c rest =>
      have hcw : c.isWhitespace := hl c (by simp)
      have hpref : pat.isPrefixOf (c :: rest) = false := by
        rw [hp]
        show (c0 == c && tl.isPrefixOf rest) = false
        have hne : (c0 == c) = false := by
          apply beq_eq_false_iff_ne.mpr
          intro hEq
          rw [hEq, hcw] at hc0
          cases hc0
        rw [hne, Bool.false_and]
      have hrest : replaceFuel pat repl n rest = rest :=
        ih rest (fun d hd => hl d (List.mem_cons_of_mem c hd))
      show (if pat.isPrefixOf (c :: rest) = true then
          repl ++ replaceFuel pat repl n (rest.drop (pat.length - 1))
        else c :: replaceFuel pat repl n rest) = c :: rest
      rw [hpref]
      simp [hrest]

lemma split_nil_of_strip_empty {s : String} (h : pyStrip s = "") :
    pySplit (pyStrip (pyReplace s "Opublikowana:" "")) = [] := by
  have hws := strip_empty_all_ws h
  have hrep : pyReplace s "Opublikowana:" "" = s :=
    congrArg String.mk
      (replaceFuel_all_ws ("Opublikowana:".data) ("".data) 'O' ("publikowana:".data)
        rfl rfl s.data.length s.data hws)
  rw [hrep, h]
  rfl

/-- Value of `convert_to_iso` once the guard passed and the token unpacking
succeeded: only the month lookup remains. -/
lemma convert_eq_of_tokens (s d m y : String) (h0 : pyStrip s ≠ "")
    (hts : pySplit (pyStrip (pyReplace s "Opublikowana:" "")) = [d, m, y]) :
    convert_to_iso s
      = match monthLookup m with
        | some month => y ++ "-" ++ month ++ "-" ++ zfill2 d
        | none => "Brak daty" := by
  unfold convert_to_iso
  rw [if_neg h0, hts]

/-! ### Coordinator lemmas -/

lemma inv_init (f : String → Option String) (p : String → List R) (urls : List String)
    (k : Nat) : Inv f p urls k (initState urls k) := by
  refine ⟨?_, ?_, ?_, ?_⟩ <;> simp [initState]

lemma inv_step {f : String → Option String} {p : String → List R} {urls : List String}
    {k : Nat} {s t : SchedState R} (hst : Step f p s t) (h : Inv f p urls k s) :
    Inv f p urls k t := by
  obtain ⟨h1, h2, h3, h4⟩ := h
  cases hst with
  | acquire url hmem hav =>
    have hwr : s.waiting.erase url + (url ::ₘ s.running) = s.waiting + s.running := by
      rw [Multiset.add_cons, ← Multiset.cons_add, Multiset.cons_erase hmem]
    refine ⟨?_, ?_, ?_, ?_⟩
    · show Multiset.card (url ::ₘ s.running) + (s.avail - 1) = k
      simp only [Multiset.card_cons]
      omega
    · show s.waiting.erase url + (url ::ₘ s.running) + s.finished = ↑urls
      rw [hwr]; exact h2
    · show (↑s.data : Multiset R)
          + (s.waiting.erase url + (url ::ₘ s.running)).bind
              (fun u => (contribution f p u : Multiset R))
        = (↑urls : Multiset String).bind (fun u => (contribution f p u : Multiset R))
      rw [hwr]; exact h3
    · show (↑s.logs : Multiset LogMsg)
          + (s.waiting.erase url + (url ::ₘ s.running)).bind
              (fun u => (logContribution f p u : Multiset LogMsg))
        = (↑urls : Multiset String).bind (fun u => (logContribution f p u : Multiset LogMsg))
      rw [hwr]; exact h4
  | finish url hmem =>
    have hcard : Multiset.card s.running = Multiset.card (s.running.erase url) + 1 := by
      conv_lhs => rw [← Multiset.cons_erase hmem]
      rw [Multiset.card_cons]
    have hwr : s.waiting + s.running = url ::ₘ (s.waiting + s.running.erase url) := by
      conv_lhs => rw [← Multiset.cons_erase hmem]
      rw [Multiset.add_cons]
    refine ⟨?_, ?_, ?_, ?_⟩
    · show Multiset.card (s.running.erase url) + (s.avail + 1) = k
      omega
    · show s.waiting + s.running.erase url + (url ::ₘ s.finished) = ↑urls
      rw [Multiset.add_cons, ← Multiset.cons_add, ← Multiset.add_cons,
        Multiset.cons_erase hmem]
      exact h2
    · show (↑(s.data ++ contribution f p url) : Multiset R)
          + (s.waiting + s.running.erase url).bind
              (fun u => (contribution f p u : Multiset R))
        = (↑urls : Multiset String).bind (fun u => (contribution f p u : Multiset R))
      rw [hwr, Multiset.cons_bind] at h3
      rw [← Multiset.coe_add, add_assoc]
      exact h3
    · show (↑(s.logs ++ logContribution f p url) : Multiset LogMsg)
          + (s.waiting + s.running.erase url).bind
              (fun u => (logContribution f p u : Multiset LogMsg))
        = (↑urls : Multiset String).bind (fun u => (logContribution f p u : Multiset LogMsg))
      rw [hwr, Multiset.cons_bind] at h4
      rw [← Multiset.coe_add, add_assoc]
      exact h4

lemma inv_reach {f : String → Option String} {p : String → List R} {urls : List String}
    {k : Nat} {s : SchedState R} (h : Reachable f p (initState urls k) s) :
    Inv f p urls k s := by
  induction h with
  | refl => exact inv_init f p urls k
  | tail hab hbc ih => exact inv_step hbc ih

/-- From any state respecting the permit invariant, some interleaving drives
the run to completion (measure: `2·|waiting| + |running|`). -/
lemma exists_terminal (f : String → Option String) (p : String → List R) (k : Nat)
    (hk : 1 ≤ k) :
    ∀ (n : Nat) (s : SchedState R),
      2 * Multiset.card s.waiting + Multiset.card s.running ≤ n →
      Multiset.card s.running + s.avail = k →
      ∃ t, Relation.ReflTransGen (Step f p) s t ∧ Terminal t := by
  intro n
  induction n with
  | zero =>
    intro s hm _
    have hw : s.waiting = 0 := by rw [← Multiset.card_eq_zero]; omega
    have hr : s.running = 0 := by rw [← Multiset.card_eq_zero]; omega
    exact ⟨s, Relation.ReflTransGen.refl, hw, hr⟩
  | succ n ih =>
    intro s hm hinv
    by_cases hr : s.running = 0
    · by_cases hw : s.waiting = 0
      · exact ⟨s, Relation.ReflTransGen.refl, hw, hr⟩
      · obtain ⟨u, hu⟩ := Multiset.exists_mem_of_ne_zero hw
        have hav : 0 < s.avail := by
          rw [hr] at hinv
          simp only [Multiset.card_zero, Nat.zero_add] at hinv
          omega
        have hcw : Multiset.card s.waiting = Multiset.card (s.waiting.erase u) + 1 := by
          conv_lhs => rw [← Multiset.cons_erase hu]
          rw [Multiset.card_cons]
        have hcr : Multiset.card s.running = 0 := by rw [hr]; simp
        obtain ⟨t, htr, htt⟩ := ih
          { waiting := s.waiting.erase u
            running := u ::ₘ s.running
            finished := s.finished
            avail := s.avail - 1
            data := s.data
            logs := s.logs }
          (by
            show 2 * Multiset.card (s.waiting.erase u) + Multiset.card (u ::ₘ s.running) ≤ n
            simp only [Multiset.card_cons]
            omega)
          (by
            show Multiset.card (u ::ₘ s.running) + (s.avail - 1) = k
            simp only [Multiset.card_cons]
            omega)
        exact ⟨t, Relation.ReflTransGen.head (Step.acquire s u hu hav) htr, htt⟩
    · obtain ⟨u, hu⟩ := Multiset.exists_mem_of_ne_zero hr
      have hcr : Multiset.card s.running = Multiset.card (s.running.erase u) + 1 := by
        conv_lhs => rw [← Multiset.cons_erase hu]
        rw [Multiset.card_cons]
      obtain ⟨t, htr, htt⟩ := ih
        { waiting := s.waiting
          running := s.running.erase u
          finished := u ::ₘ s.finished
          avail := s.avail + 1
          data := s.data ++ contribution f p u
          logs := s.logs ++ logContribution f p u }
        (by
          show 2 * Multiset.card s.waiting + Multiset.card (s.running.erase u) ≤ n
          omega)
        (by
          show Multiset.card (s.running.erase u) + (s.avail + 1) = k
          omega)
      exact ⟨t, Relation.ReflTransGen.head (Step.finish s u hu) htr, htt⟩

end Coordinator

/-! ### Claims about the coordinator -/

/-- Claim C1: if rendering a URL `u` fails (`fetch_page` returns the failure
signal `none`), then `u`'s task contributes zero records, some interleaving
still drives the run to completion, and in every completed run the error is
logged and the aggregate is exactly the combined contribution of the sibling
URLs — a single rendering failure never aborts sibling tasks or the run. -/
theorem C1_fault_isolation {R : Type} (f : String → Option String) (p : String → List R)
    (urls : List String) (k : Nat) (u : String)
    (hk : 1 ≤ k) (hu : u ∈ urls) (hf : f u = none) :
    contribution f p u = [] ∧
    (∃ t, Reachable f p (initState urls k) t ∧ Terminal t) ∧
    ∀ s : SchedState R, Reachable f p (initState urls k) s → Terminal s →
      LogMsg.fetchError u ∈ s.logs ∧
      (↑s.data : Multiset R)
        = ((↑urls : Multiset String).erase u).bind
            (fun v => (contribution f p v : Multiset R)) := by
  have hc : contribution f p u = [] := by simp [contribution, hf]
  refine ⟨hc, ?_, ?_⟩
  · exact exists_terminal f p k hk (2 * urls.length) (initState urls k)
      (by simp [initState]) (by simp [initState])
  · intro s hs ht
    obtain ⟨hinv1, hinv2, hinv3, hinv4⟩ := inv_reach hs
    obtain ⟨hw, hr⟩ := ht
    rw [hw, hr] at hinv3 hinv4
    have hmu : u ∈ (↑urls : Multiset String) := Multiset.mem_coe.mpr hu
    have hdata : (↑s.data : Multiset R)
        = (↑urls : Multiset String).bind (fun v => (contribution f p v : Multiset R)) := by
      simpa using hinv3
    have hlogs : (↑s.logs : Multiset LogMsg)
        = (↑urls : Multiset String).bind (fun v => (logContribution f p v : Multiset LogMsg)) := by
      simpa using hinv4
    constructor
    · have hmem : LogMsg.fetchError u
          ∈ (↑urls : Multiset String).bind
              (fun v => (logContribution f p v : Multiset LogMsg)) := by
        rw [Multiset.mem_bind]
        exact ⟨u, hmu, by simp [logContribution, hf]⟩
      rw [← hlogs] at hmem
      simpa using hmem
    · calc (↑s.data : Multiset R)
          = (↑urls : Multiset String).bind (fun v => (contribution f p v : Multiset R)) :=
            hdata
        _ = (u ::ₘ (↑urls : Multiset String).erase u).bind
              (fun v => (contribution f p v : Multiset R)) := by
            rw [Multiset.cons_erase hmu]
        _ = ((↑urls : Multiset String).erase u).bind
              (fun v => (contribution f p v : Multiset R)) := by
            rw [Multiset.cons_bind, hc]
            simp

/-- Witness for C1 at a concrete run: two URLs, `"bad"` failing, one permit. -/
theorem C1_witness :
    contribution wFetch wParse "bad" = [] ∧
    (∃ t, Reachable wFetch wParse (initState ["bad", "good"] 1) t ∧ Terminal t) ∧
    ∀ s : SchedState Nat, Reachable wFetch wParse (initState ["bad", "good"] 1) s →
      Terminal s →
      LogMsg.fetchError "bad" ∈ s.logs ∧
      (↑s.data : Multiset Nat)
        = ((↑["bad", "good"] : Multiset String).erase "bad").bind
            (fun v => (contribution wFetch wParse v : Multiset Nat)) :=
  C1_fault_isolation wFetch wParse ["bad", "good"] 1 "bad" (by decide) (by decide) (by decide)

/-- Claim C2: with `max_workers = k`, every reachable state of a run has at
most `k` tasks inside their renderer/extract cycle — a task acquires one of
the `k` semaphore permits before creating its renderer and holds it until the
cycle completes, so at most `k` renderer instances are active at once. -/
theorem C2_concurrency_bound {R : Type} (f : String → Option String) (p : String → List R)
    (urls : List String) (k : Nat) (s : SchedState R)
    (h : Reachable f p (initState urls k) s) :
    Multiset.card s.running ≤ k := by
  have h1 := (inv_reach h).1
  omega

/-- Witness for C2: after one `acquire` step of the run on `["a", "b"]` with
one permit, one task is running, within the bound. -/
theorem C2_witness :
    Multiset.card
      ({ waiting := {"b"}, running := {"a"}, finished := 0, avail := 0,
         data := [], logs := [] } : SchedState Nat).running ≤ 1 :=
  C2_concurrency_bound wFetch wParse ["a", "b"] 1 _
    (Relation.ReflTransGen.single
      (Step.acquire (initState ["a", "b"] 1) "a" (by decide) (by decide)))

/-- Claim C3: whenever `process_urls` completes (in any completion order),
the aggregate equals, as a multiset, the union of the per-URL extraction
results, and every dispatched task has completed. -/
theorem C3_aggregate_union {R : Type} (f : String → Option String) (p : String → List R)
    (urls : List String) (k : Nat) (s : SchedState R)
    (h : Reachable f p (initState urls k) s) (ht : Terminal s) :
    (↑s.data : Multiset R)
      = (↑urls : Multiset String).bind (fun u => (contribution f p u : Multiset R)) ∧
    s.finished = ↑urls := by
  obtain ⟨hinv1, hinv2, hinv3, hinv4⟩ := inv_reach h
  obtain ⟨hw, hr⟩ := ht
  rw [hw, hr] at hinv2 hinv3
  constructor
  · simpa using hinv3
  · simpa using hinv2

/-- Witness for C3 at a concrete completed run on `["a"]` with one permit:
the aggregate `[7]` is the union of the per-URL results, and `"a"`'s task
completed. -/
theorem C3_witness :
    (↑([7] : List Nat) : Multiset Nat)
      = (↑["a"] : Multiset String).bind (fun u => (contribution wFetch wParse u : Multiset Nat)) ∧
    ({"a"} : Multiset String) = ↑["a"] := by
  have h1 : Step wFetch wParse (initState ["a"] 1)
      ({ waiting := 0, running := {"a"}, finished := 0, avail := 0,
         data := [], logs := [] } : SchedState Nat) :=
    Step.acquire (initState ["a"] 1) "a" (by decide) (by decide)
  have h2 : Step wFetch wParse
      ({ waiting := 0, running := {"a"}, finished := 0, avail := 0,
         data := [], logs := [] } : SchedState Nat)
      ({ waiting := 0, running := 0, finished := {"a"}, avail := 1,
         data := [7], logs := [LogMsg.processed "a" 1] } : SchedState Nat) :=
    Step.finish _ "a" (by decide)
  exact C3_aggregate_union wFetch wParse ["a"] 1 _
    ((Relation.ReflTransGen.single h1).tail h2) ⟨rfl, rfl⟩

/-! ### Claims about the extractor's normalization helpers -/

/-- Claim C4 counterexample: contrary to the claim, the salary-cleaning
function `clean_salary` maps the empty string to the empty string, not to the
absent-salary sentinel `"Brak wynagrodzenia"` (the sentinel is substituted at
the call site in `parse_page` when the salary element is absent, before
`clean_salary` runs — an empty string passes through unchanged). -/
theorem C4_counterexample : ¬ clean_salary "" = "Brak wynagrodzenia" := by
  decide

/-- Claim C4 (amended): `clean_salary` maps
`"8000 zł / mies. (zal. od umowy)"` to `"8000"` and the empty string to the
empty string; the sentinel `"Brak wynagrodzenia"` for an absent salary
element is substituted before suffix-stripping is attempted (it is the
argument `parse_page` passes to `clean_salary` when the element is missing,
and `clean_salary` leaves it unchanged), so a listing without a salary
element still carries the sentinel. -/
theorem C4_salary_amended :
    clean_salary "8000 zł / mies. (zal. od umowy)" = "8000" ∧
    clean_salary "" = "" ∧
    clean_salary "Brak wynagrodzenia" = "Brak wynagrodzenia" ∧
    (parse_offer emptyOffer).wynagrodzenie = "Brak wynagrodzenia" :=
  ⟨by decide, by decide, by decide, by decide⟩

/-- Claim C5: `convert_to_iso` maps `"12 stycznia 2024"` to the zero-padded
ISO form `"2024-01-12"`, the empty string to the date sentinel `"Brak daty"`,
and an unrecognized month name to the same sentinel. -/
theorem C5_date_examples :
    convert_to_iso "12 stycznia 2024" = "2024-01-12" ∧
    convert_to_iso "" = "Brak daty" ∧
    convert_to_iso "5 invalidmonth 2023" = "Brak daty" :=
  ⟨by decide, by decide, by decide⟩

/-- Claim C6: `convert_to_iso` is total — every input yields either the
sentinel `"Brak daty"` or a formatted date (first conjunct), and each parse
failure (empty input, a token count other than three after stripping the
`"Opublikowana:"` label, or an unrecognized month name) yields the sentinel
rather than an error (second conjunct). -/
theorem C6_date_total (s : String) :
    (convert_to_iso s = "Brak daty" ∨
      ∃ d m y mm,
        pySplit (pyStrip (pyReplace s "Opublikowana:" "")) = [d, m, y] ∧
        monthLookup m = some mm ∧
        convert_to_iso s = y ++ "-" ++ mm ++ "-" ++ zfill2 d) ∧
    ((pyStrip s = "" ∨
        (pySplit (pyStrip (pyReplace s "Opublikowana:" ""))).length ≠ 3 ∨
        ∃ d m y,
          pySplit (pyStrip (pyReplace s "Opublikowana:" "")) = [d, m, y] ∧
          monthLookup m = none) →
      convert_to_iso s = "Brak daty") := by
  by_cases h0 : pyStrip s = ""
  · have hval : convert_to_iso s = "Brak daty" := by
      unfold convert_to_iso
      rw [if_pos h0]
    exact ⟨Or.inl hval, fun _ => hval⟩
  · rcases hts : pySplit (pyStrip (pyReplace s "Opublikowana:" "")) with _ | ⟨d, rest1⟩
    · have hval : convert_to_iso s = "Brak daty" := by
        unfold convert_to_iso
        rw [if_neg h0, hts]
      exact ⟨Or.inl hval, fun _ => hval⟩
    · rcases rest1 with _ | ⟨m, rest2⟩
      · have hval : convert_to_iso s = "Brak daty" := by
          unfold convert_to_iso
          rw [if_neg h0, hts]
        exact ⟨Or.inl hval, fun _ => hval⟩
      · rcases rest2 with _ | ⟨y, rest3⟩
        · have hval : convert_to_iso s = "Brak daty" := by
            unfold convert_to_iso
            rw [if_neg h0, hts]
          exact ⟨Or.inl hval, fun _ => hval⟩
        · rcases rest3 with _ | ⟨e, rest4⟩
          · have key := convert_eq_of_tokens s d m y h0 hts
            rcases hm : monthLookup m with _ | mm
            · have hval : convert_to_iso s = "Brak daty" := by
                rw [key, hm]
              exact ⟨Or.inl hval, fun _ => hval⟩
            · have hval : convert_to_iso s = y ++ "-" ++ mm ++ "-" ++ zfill2 d := by
                rw [key, hm]
              refine ⟨Or.inr ⟨d, m, y, mm, rfl, hm, hval⟩, ?_⟩
              intro hOr
              rcases hOr with h0' | hlen | ⟨d', m', y', hts', hnone⟩
              · exact absurd h0' h0
              · simp at hlen
              · obtain ⟨ed, em, ey⟩ : d = d' ∧ m = m' ∧ y = y' := by
                  simpa using hts'
                rw [← em] at hnone
                rw [hm] at hnone
                cases hnone
          · have hval : convert_to_iso s = "Brak daty" := by
              unfold convert_to_iso
              rw [if_neg h0, hts]
            exact ⟨Or.inl hval, fun _ => hval⟩

/-- Witness for C6 at the two-token input `"1 2"`: the malformed token count
yields the sentinel. -/
theorem C6_witness : convert_to_iso "1 2" = "Brak daty" :=
  (C6_date_total "1 2").2 (Or.inr (Or.inl (by decide)))

/-- Claim C10: whenever the input, after removing the `"Opublikowana:"` label
and stripping whitespace, splits into exactly three whitespace-separated
tokens whose middle token is a recognized Polish month name, `convert_to_iso`
returns `year ++ "-" ++ month ++ "-" ++ zfill2 day` with no validation that
the day or year tokens are numeric or in calendar range. -/
theorem C10_no_validation (s d m y mm : String)
    (h1 : pySplit (pyStrip (pyReplace s "Opublikowana:" "")) = [d, m, y])
    (h2 : monthLookup m = some mm) :
    convert_to_iso s = y ++ "-" ++ mm ++ "-" ++ zfill2 d := by
  have h0 : pyStrip s ≠ "" := by
    intro h0
    rw [split_nil_of_strip_empty h0] at h1
    cases h1
  rw [convert_eq_of_tokens s d m y h0 h1, h2]

/-- Witness for C10: the out-of-range day `"99 stycznia 2024"` is formatted
as `"2024-01-99"`, not rejected. -/
theorem C10_witness : convert_to_iso "99 stycznia 2024" = "2024-01-99" :=
  C10_no_validation "99 stycznia 2024" "99" "stycznia" "2024" "01" (by decide) (by decide)

/-- Claim C7: on a listing block with zero matching technology tag elements,
the `Technologie` field is the sentinel string `"Brak technologii"`, not an
empty sequence; with `n ≥ 1` matching tags it is the ordered sequence of
exactly those `n` trimmed tag texts in document order. -/
theorem C7_technologies (o : Offer) :
    (o.techTags = [] →
      (parse_offer o).technologie = TechValue.strVal "Brak technologii") ∧
    (o.techTags ≠ [] →
      (parse_offer o).technologie = TechValue.listVal (o.techTags.map pyStrip) ∧
      (o.techTags.map pyStrip).length = o.techTags.length) := by
  constructor
  · intro h
    simp [parse_offer, h]
  · intro h
    constructor
    · simp [parse_offer, h]
    · simp

/-- Witness for C7: a block without tags gets the sentinel; a block with the
two tags `"Python "` and `" SQL"` gets exactly their trimmed texts in order. -/
theorem C7_witness :
    (parse_offer emptyOffer).technologie = TechValue.strVal "Brak technologii" ∧
    (parse_offer twoTechOffer).technologie = TechValue.listVal ["Python", "SQL"] := by
  constructor
  · exact (C7_technologies emptyOffer).1 rfl
  · have h := (C7_technologies twoTechOffer).2 (by decide)
    rw [h.1]
    decide

/-! ### Claims about the record sink -/

/-- Claim C8: saving an empty record sequence is a no-op that logs a warning
and never opens the destination file; saving a non-empty sequence writes a
header row taken from the first record's field names in that record's field
order, followed by exactly one data row per record in sequence order. -/
theorem C8_save_shape (first : List (String × String)) (rest : List (List (String × String)))
    (filename : String) (disk : SinkOutcome) :
    ((save_to_csv [] filename disk).file = FileState.untouched ∧
      LogMsg.noDataWarning ∈ (save_to_csv [] filename disk).logs) ∧
    ∃ rows,
      (save_to_csv (first :: rest) filename SinkOutcome.ok).file = FileState.written rows ∧
      rows.length = (first :: rest).length + 1 ∧
      rows.head? = some (first.map Prod.fst) ∧
      ∀ i : Nat, rows[i + 1]? = ((first :: rest)[i]?).map (rowOf (first.map Prod.fst)) := by
  refine ⟨⟨rfl, by simp [save_to_csv]⟩, ?_⟩
  refine ⟨(first.map Prod.fst) :: (first :: rest).map (rowOf (first.map Prod.fst)),
    rfl, ?_, rfl, ?_⟩
  · simp
  · intro i
    cases i <;> simp

/-- Claim C9 counterexample: contrary to the claim, an `IOError` during the
write is not reported as a failure to the caller — the Python function
returns `None` on every path, so the caller-visible outcome (no exception
propagates, nothing returned) on `IOError` is identical to the success
outcome. -/
theorem C9_counterexample :
    (save_to_csv [[("Tytuł", "x")]] "job_listings.csv" SinkOutcome.ioError).raised
      = (save_to_csv [[("Tytuł", "x")]] "job_listings.csv" SinkOutcome.ok).raised ∧
    (save_to_csv [[("Tytuł", "x")]] "job_listings.csv" SinkOutcome.ioError).raised = false :=
  ⟨rfl, rfl⟩

/-- Claim C9 (amended): an `IOError` while writing is caught and logged, and
no exception propagates (the process exits cleanly); but the call returns
normally exactly as on success, so failure is not distinguishable by the
caller. -/
theorem C9_save_error_amended (first : List (String × String))
    (rest : List (List (String × String))) (filename : String) :
    (save_to_csv (first :: rest) filename SinkOutcome.ioError).raised = false ∧
    LogMsg.saveError filename
      ∈ (save_to_csv (first :: rest) filename SinkOutcome.ioError).logs ∧
    (save_to_csv (first :: rest) filename SinkOutcome.ioError).raised
      = (save_to_csv (first :: rest) filename SinkOutcome.ok).raised := by
  refine ⟨rfl, by simp [save_to_csv], rfl⟩

end App
